import Mathlib

/-
Verification development for the incident-response-mvp core engines.

This file gives a shallow embedding of the Go source of the repository
(internal/services/detection.go, internal/services/orchestrator.go,
internal/services/actions.go, internal/models) and proves properties of the
embedded definitions.

Modelling conventions:
- Go interface-typed dynamic values (the payloads of events, condition
  parameters, playbook parameters and execution contexts) are modelled by the
  inductive type Value below.  Go float64 values (the only numeric type
  produced by encoding/json) are modelled as rationals; every float64 that
  reaches the engines comes from JSON/YAML parsing and is therefore a finite
  double, and the order on finite doubles embeds in the rationals.  YAML
  integer scalars unmarshal to Go int and are modelled by a separate
  constructor, mirroring the type distinction that Go type assertions see.
- Go maps of type map from string to interface values are modelled as
  association lists without duplicate keys; lookup takes the first match and
  an absent key yields vnull, matching the nil result of a Go map read.
- time.Time values are modelled as integers (seconds); time.Now() becomes an
  explicit argument called now.
- Database effects (gorm calls) are modelled as explicit operation traces or
  as list-of-rows queries; the SQL layer itself is an external collaborator.
- regexp.MatchString is an external library; it is abstracted as a parameter
  rm returning none on a pattern compile error.
-/

/-- Dynamic Go values as they flow through the engines (interface-typed). -/
inductive Value where
  | vnull
  | vstr (s : String)
  | vfloat (q : ℚ)
  | vint (n : Int)
  | vbool (b : Bool)
  | vlist (xs : List Value)
  | vmap (m : List (String × Value))
  | verr (msg : String)

/-- Lookup in a Go map modelled as an association list; a missing key reads
as nil, i.e. vnull. -/
def mapGet (m : List (String × Value)) (k : String) : Value :=
  match m.find? (fun kv => kv.1 == k) with
  | some kv => kv.2
  | none => Value.vnull

/-- Write to a Go map modelled as an association list: overwrite the existing
binding if present, otherwise append a new one. -/
def mapSet (m : List (String × Value)) (k : String) (v : Value) : List (String × Value) :=
  if m.any (fun kv => kv.1 == k) then
    m.map (fun kv => if kv.1 == k then (k, v) else kv)
  else
    m ++ [(k, v)]

mutual

/-- Default Go formatting of a dynamic value, as produced by the fmt package
verb percent-v: strings print raw, nil prints the angle-bracketed nil text,
booleans print true/false, error values print their message.  The rendering
of numbers, lists and maps is a boundary approximation (no claim depends on
it). -/
def goFormat : Value → String
  | .vnull => "<nil>"
  | .vstr s => s
  | .vfloat q => toString q
  | .vint n => toString n
  | .vbool b => if b then "true" else "false"
  | .verr msg => msg
  | .vlist xs => "[" ++ String.intercalate " " (goFormatList xs) ++ "]"
  | .vmap m => "map[" ++ String.intercalate " " (goFormatEntries m) ++ "]"

def goFormatList : List Value → List String
  | [] => []
  | v :: rest => goFormat v :: goFormatList rest

def goFormatEntries : List (String × Value) → List String
  | [] => []
  | (k, v) :: rest => (k ++ ":" ++ goFormat v) :: goFormatEntries rest

end

/-- Splitting a string (as a character list) on the dot character, the
embedding of strings.Split(path, dot) from the Go standard library. -/
def splitPath : List Char → List (List Char)
  | [] => [[]]
  | c :: rest =>
    if c = '.' then
      [] :: splitPath rest
    else
      match splitPath rest with
      | s :: ss => (c :: s) :: ss
      | [] => [[c]]

/-- Traversal loop of getNestedField in detection.go: descend one segment at
a time through nested maps; a non-map value met before the segments are
exhausted yields nil. -/
def getNestedFieldParts : List (List Char) → Value → Value
  | [], current => current
  | part :: rest, current =>
    match current with
    | .vmap m => getNestedFieldParts rest (mapGet m (String.mk part))
    | _ => Value.vnull

/-- getNestedField from detection.go: resolve a dot-separated path into the
normalized payload. -/
def getNestedField (data : List (String × Value)) (field : String) : Value :=
  getNestedFieldParts (splitPath field.toList) (Value.vmap data)

/-- Event model (internal/models/event.go).  The Normalized column holds a
JSON document as text; the field here carries the result of parsing it with
encoding/json: some object on success, none when json.Unmarshal rejects the
text.  Timestamps are integers. -/
structure Event where
  eventID : String
  timestamp : Int
  source : String
  eventType : String
  severity : String
  rawData : String
  normalized : Option (List (String × Value))
  processedAt : Option Int

/-- Condition from detection.go (all operator parameters present on one
struct, exactly as the Go YAML shape). -/
structure Condition where
  field : String
  operator : String
  value : Value
  values : List String
  pattern : String
  threshold : Int
  timeWindow : Int
  countField : String

/-- RuleAction from detection.go. -/
structure RuleAction where
  type : String
  priority : String
  playbook : String
  channel : String
  channels : List String
  message : String
  duration : Value

/-- Inner rule struct of the Rule YAML shape in detection.go. -/
structure RuleSpec where
  id : String
  name : String
  description : String
  category : String
  severity : String
  enabled : Bool
  conditions : List Condition
  actions : List RuleAction

/-- Rule from detection.go (the YAML document wraps the rule under a rule
key, mirrored by the wrapper structure). -/
structure Rule where
  rule : RuleSpec

/-- String-valued columns of the events table, as addressable by a SQL where
clause.  A column name that is not a string column of the table yields none;
a where clause on such a column makes the query error out in gorm with the
count left at zero, which coincides with filtering every row out. -/
def eventColumn (e : Event) (col : String) : Option String :=
  match col with
  | "event_id" => some e.eventID
  | "source" => some e.source
  | "event_type" => some e.eventType
  | "severity" => some e.severity
  | "raw_data" => some e.rawData
  | _ => none

/-- evaluateCountCondition from detection.go: the window start is now minus
timeWindow seconds; the query filters persisted events by timestamp at least
the window start and by the column named by the condition field being equal
to the current event's event type; with the count distinct operator and a
nonempty count field it counts distinct values of that column, otherwise it
counts rows; the condition matches when the count reaches the threshold. -/
def evaluateCountCondition (db : List Event) (now : Int) (event : Event)
    (cond : Condition) : Bool :=
  let windowStart := now - cond.timeWindow
  let q1 := db.filter (fun e => windowStart ≤ e.timestamp)
  let q2 := q1.filter (fun e => eventColumn e cond.field == some event.eventType)
  let count : Int :=
    if cond.operator == "count_distinct" && cond.countField != "" then
      ((q2.filterMap (fun e => eventColumn e cond.countField)).dedup).length
    else
      q2.length
  cond.threshold ≤ count

/-- Field resolution step of evaluateCondition in detection.go: well-known
event attributes first, then the normalized payload by dotted path. -/
def conditionFieldValue (event : Event) (normalized : List (String × Value))
    (field : String) : Value :=
  match field with
  | "event_type" => Value.vstr event.eventType
  | "source" => Value.vstr event.source
  | "severity" => Value.vstr event.severity
  | _ => getNestedField normalized field

/-- evaluateCondition from detection.go.  The parameter rm abstracts
regexp.MatchString (none models a pattern compile error, which the code logs
and treats as a non-match). -/
def evaluateCondition (rm : String → String → Option Bool) (db : List Event)
    (now : Int) (event : Event) (normalized : List (String × Value))
    (cond : Condition) : Bool :=
  let fieldValue := conditionFieldValue event normalized cond.field
  match cond.operator with
  | "equals" => goFormat fieldValue == goFormat cond.value
  | "in" => cond.values.any (fun v => goFormat fieldValue == v)
  | "greater_than" =>
    match fieldValue, cond.value with
    | .vfloat num, .vfloat threshold => decide (threshold < num)
    | _, _ => false
  | "regex" =>
    match rm cond.pattern (goFormat fieldValue) with
    | some b => b
    | none => false
  | "count" => evaluateCountCondition db now event cond
  | "count_distinct" => evaluateCountCondition db now event cond
  | _ => false

/-- matchesRule from detection.go: the conjunction of all conditions of the
rule (the Go loop returns false at the first failing condition). -/
def matchesRule (rm : String → String → Option Bool) (db : List Event)
    (now : Int) (event : Event) (normalized : List (String × Value))
    (rule : Rule) : Bool :=
  rule.rule.conditions.all (evaluateCondition rm db now event normalized)

/-- The count described by the specification text for the count operators:
persisted events inside the trailing window whose column named by the
condition field equals the current event's event type, counted as rows, or
as distinct values of the count field for the count distinct operator with a
nonempty count field. -/
def windowedEventCount (db : List Event) (now : Int) (event : Event)
    (cond : Condition) : Int :=
  let matching := db.filter (fun e =>
    (now - cond.timeWindow ≤ e.timestamp) &&
      (eventColumn e cond.field == some event.eventType))
  if cond.operator == "count_distinct" && cond.countField != "" then
    ((matching.filterMap (fun e => eventColumn e cond.countField)).dedup).length
  else
    matching.length

/-- Opening brace character (written by code point to keep brace characters
out of literals). -/
def obChar : Char := Char.ofNat 123

/-- Closing brace character. -/
def cbChar : Char := Char.ofNat 125

/-- The two-character opening delimiter of a template span. -/
def openDelim : List Char := [obChar, obChar]

/-- The two-character closing delimiter of a template span. -/
def closeDelim : List Char := [cbChar, cbChar]

/-- strings.Index from the Go standard library, on character lists: the
position of the first occurrence of the pattern, none when absent. -/
def idxOf (pat : List Char) : List Char → Option Nat
  | [] => if pat.isPrefixOf ([] : List Char) then some 0 else none
  | c :: rest =>
    if pat.isPrefixOf (c :: rest) then some 0
    else (idxOf pat rest).map (· + 1)

/-- Whitespace predicate of strings.TrimSpace (restricted to the ASCII
whitespace that can occur in the engines' template strings). -/
def isSpaceChar (c : Char) : Bool :=
  c == ' ' || c == '\t' || c == '\n' || c == '\r'

/-- strings.TrimSpace from the Go standard library, on character lists. -/
def trimSpace (l : List Char) : List Char :=
  ((l.dropWhile isSpaceChar).reverse.dropWhile isSpaceChar).reverse

/-- Traversal loop of resolveVariable in orchestrator.go: descend one
segment at a time; a non-map value met before the segments are exhausted
makes the function return the original path text as a string. -/
def resolveParts (path : String) : List (List Char) → Value → Value
  | [], current => current
  | part :: rest, current =>
    match current with
    | .vmap m => resolveParts path rest (mapGet m (String.mk part))
    | _ => Value.vstr path

/-- resolveVariable from orchestrator.go. -/
def resolveVariable (path : String) (context : List (String × Value)) : Value :=
  resolveParts path (splitPath path.toList) (Value.vmap context)

/-- Rewriting loop of interpolateString in orchestrator.go.  The Go loop
rescans the whole string after each substitution and can diverge when a
substituted value reintroduces the opening delimiter; the fuel argument
bounds the number of substitutions, and the caller passes one more than the
length of the string, which is enough for every terminating run in which
substituted values do not contain the opening delimiter. -/
def interpolateLoop (context : List (String × Value)) :
    Nat → List Char → List Char
  | fuel, result =>
    match idxOf openDelim result with
    | none => result
    | some start =>
      match idxOf closeDelim (result.drop start) with
      | none => result
      | some endRel =>
        match fuel with
        | 0 => result
        | fuel' + 1 =>
          let endAbs := endRel + start
          let varPath := trimSpace ((result.drop (start + 2)).take (endAbs - (start + 2)))
          let value := resolveVariable (String.mk varPath) context
          interpolateLoop context fuel'
            (result.take start ++ (goFormat value).toList ++ result.drop (endAbs + 2))

/-- interpolateString from orchestrator.go. -/
def interpolateString (s : String) (context : List (String × Value)) : String :=
  String.mk (interpolateLoop context (s.toList.length + 1) s.toList)

mutual

/-- One value of interpolateParameters in orchestrator.go: strings are
interpolated, nested maps are recursed into, everything else passes through
unchanged. -/
def interpolateParamValue (context : List (String × Value)) : Value → Value
  | .vstr s => Value.vstr (interpolateString s context)
  | .vmap m => Value.vmap (interpolateParams context m)
  | v => v

/-- interpolateParameters from orchestrator.go, on the entries of the
parameter map. -/
def interpolateParams (context : List (String × Value)) :
    List (String × Value) → List (String × Value)
  | [] => []
  | (k, v) :: rest => (k, interpolateParamValue context v) :: interpolateParams context rest

end

/-- PlaybookInput from orchestrator.go. -/
structure PlaybookInput where
  name : String
  required : Bool

/-- PlaybookStep from orchestrator.go. -/
structure PlaybookStep where
  id : String
  name : String
  action : String
  parameters : List (String × Value)
  onFailure : String
  condition : String

/-- Inner playbook struct of the Playbook YAML shape in orchestrator.go. -/
structure PlaybookSpec where
  id : String
  name : String
  description : String
  version : String
  inputs : List PlaybookInput
  steps : List PlaybookStep

/-- Playbook from orchestrator.go (YAML wrapper structure kept). -/
structure Playbook where
  playbook : PlaybookSpec

/-- Context update of ExecutePlaybook in orchestrator.go after a step: the
steps map is created on first use, and the entry for the step id holds the
output and the error of the step (a nil result or nil error is stored as
nil). -/
def storeStepResult (context : List (String × Value)) (stepId : String)
    (result : Option Value) (err : Option String) : List (String × Value) :=
  let stepsMap :=
    match mapGet context "steps" with
    | .vmap m => m
    | _ => []
  let entry := Value.vmap
    [("output", result.getD Value.vnull),
     ("error", match err with | some e => Value.verr e | none => Value.vnull)]
  mapSet context "steps" (Value.vmap (mapSet stepsMap stepId entry))

/-- Record of one dispatched step of a playbook run (the observable trace of
the step loop: which step was dispatched, with which interpolated
parameters, and what came back). -/
structure StepTrace where
  stepId : String
  action : String
  params : List (String × Value)
  result : Option Value
  error : Option String

/-- Result of the step loop of ExecutePlaybook: the dispatch trace, the
final execution context, and the terminal error (none when the loop ran to
completion). -/
structure ExecResult where
  trace : List StepTrace
  context : List (String × Value)
  terminal : Option String

/-- Step loop of ExecutePlaybook in orchestrator.go.  dispatch abstracts the
action registry call (its Go signature returns a result and an error); on a
dispatch error the on failure field decides between aborting with a wrapped
error (for the abort value and for the empty default) and falling through;
in every non-abort case the step's output and error are stored into the
context under the step id before the next step runs. -/
def execSteps (dispatch : String → List (String × Value) → Option Value × Option String) :
    List PlaybookStep → List (String × Value) → ExecResult
  | [], context => ⟨[], context, none⟩
  | step :: rest, context =>
    let ip := interpolateParams context step.parameters
    let dres := dispatch step.action ip
    let tr : StepTrace := ⟨step.id, step.action, ip, dres.1, dres.2⟩
    match dres.2 with
    | some e =>
      if step.onFailure == "abort" || step.onFailure == "" then
        ⟨[tr], context, some ("step " ++ step.id ++ " failed: " ++ e)⟩
      else
        let context2 := storeStepResult context step.id dres.1 (some e)
        let r := execSteps dispatch rest context2
        ⟨tr :: r.trace, r.context, r.terminal⟩
    | none =>
      let context2 := storeStepResult context step.id dres.1 none
      let r := execSteps dispatch rest context2
      ⟨tr :: r.trace, r.context, r.terminal⟩

/-- Lookup of a playbook id in the loaded playbook map. -/
def lookupPlaybook (playbooks : List (String × Playbook)) (playbookID : String) :
    Option Playbook :=
  (playbooks.find? (fun kv => kv.1 == playbookID)).map (·.2)

/-- Input validation loop of ExecutePlaybook in orchestrator.go: the first
declared input, in declaration order, that is required and absent from the
supplied inputs. -/
def firstMissingRequiredInput (declared : List PlaybookInput)
    (inputs : List (String × Value)) : Option String :=
  match declared with
  | [] => none
  | d :: rest =>
    if d.required && !(inputs.any (fun kv => kv.1 == d.name)) then some d.name
    else firstMissingRequiredInput rest inputs

/-- ExecutePlaybook from orchestrator.go: unknown id fails, then required
inputs are validated, then the context is initialised with the inputs and
the steps run sequentially.  The result pairs the dispatch trace with the
terminal error. -/
def ExecutePlaybook
    (dispatch : String → List (String × Value) → Option Value × Option String)
    (playbooks : List (String × Playbook)) (playbookID : String)
    (inputs : List (String × Value)) : List StepTrace × Option String :=
  match lookupPlaybook playbooks playbookID with
  | none => ([], some ("playbook not found: " ++ playbookID))
  | some pb =>
    match firstMissingRequiredInput pb.playbook.inputs inputs with
    | some n => ([], some ("missing required input: " ++ n))
    | none =>
      let context := [("inputs", Value.vmap inputs)]
      let r := execSteps dispatch pb.playbook.steps context
      (r.trace, r.terminal)

/-- Escape of one character inside a JSON string literal (boundary model of
encoding/json string escaping; only the quote and the backslash are treated,
which covers every string the claims touch). -/
def jsonEscapeChar (c : Char) : String :=
  if c = '"' then "\\\""
  else if c = '\\' then "\\\\"
  else String.mk [c]

/-- JSON string literal. -/
def jsonQuote (s : String) : String :=
  "\"" ++ String.join (s.toList.map jsonEscapeChar) ++ "\""

mutual

/-- Boundary model of json.Marshal on a dynamic value (errors marshal to an
empty object in Go since they expose no fields; key order of maps is a
boundary approximation). -/
def jsonOfValue : Value → String
  | .vnull => "null"
  | .vstr s => jsonQuote s
  | .vfloat q => toString q
  | .vint n => toString n
  | .vbool b => if b then "true" else "false"
  | .verr _ => "\x7b\x7d"
  | .vlist xs => "[" ++ String.intercalate "," (jsonOfList xs) ++ "]"
  | .vmap m => "\x7b" ++ String.intercalate "," (jsonOfEntries m) ++ "\x7d"

def jsonOfList : List Value → List String
  | [] => []
  | v :: rest => jsonOfValue v :: jsonOfList rest

def jsonOfEntries : List (String × Value) → List String
  | [] => []
  | (k, v) :: rest => (jsonQuote k ++ ":" ++ jsonOfValue v) :: jsonOfEntries rest

end

/-- json.Marshal of a parameter map (boundary model). -/
def jsonOfParams (params : List (String × Value)) : String :=
  jsonOfValue (Value.vmap params)

/-- ActionLog row (internal/models/actionlog.go) as written by the registry:
type, status, serialized parameters, serialized result or error message,
execution time in milliseconds, completion timestamp. -/
structure ActionLog where
  actionType : String
  status : String
  parameters : String
  result : Option String
  error : Option String
  executionTime : Int
  completedAt : Option Int

/-- Database writes performed by ActionRegistry.Execute on the action log
table: the initial create and the final save of the same row. -/
inductive LogOp where
  | create (rec : ActionLog)
  | save (rec : ActionLog)

/-- ActionRegistry.Execute from actions.go.  handlers is the registered
name-to-handler map; a handler returns a result and an error exactly like
the Go Action interface.  startTime and endTime model the two time.Now()
readings around the handler call.  The function returns what the Go function
returns (result, error) together with the trace of action log writes. -/
def registryExecute
    (handlers : List (String × (List (String × Value) → Option Value × Option String)))
    (startTime endTime : Int) (actionType : String)
    (params : List (String × Value)) :
    (Option Value × Option String) × List LogOp :=
  match handlers.find? (fun kv => kv.1 == actionType) with
  | none => ((none, some ("unknown action type: " ++ actionType)), [])
  | some kv =>
    let paramsJSON := jsonOfParams params
    let running : ActionLog :=
      ⟨actionType, "running", paramsJSON, none, none, 0, none⟩
    let hres := kv.2 params
    let executionTime := endTime - startTime
    let final : ActionLog :=
      match hres.2 with
      | some e =>
        ⟨actionType, "failed", paramsJSON, none, some e, executionTime, some endTime⟩
      | none =>
        ⟨actionType, "completed", paramsJSON, hres.1.map jsonOfValue, none,
          executionTime, some endTime⟩
    (hres, [LogOp.create running, LogOp.save final])

/-- Incident row as synthesized by createIncident in detection.go. -/
structure Incident where
  status : String
  severity : String
  category : String
  title : String
  description : String
  triggeredByRule : String
  relatedEvents : String

/-- Severity mapping of createIncident in detection.go (medium is the
fallback). -/
def severityFromRule (s : String) : String :=
  match s.toLower with
  | "critical" => "critical"
  | "high" => "high"
  | "medium" => "medium"
  | "low" => "low"
  | _ => "medium"

/-- createIncident from detection.go: the incident synthesized from the rule
and the triggering event. -/
def mkIncident (event : Event) (rule : Rule) : Incident :=
  { status := "open"
    severity := severityFromRule rule.rule.severity
    category := rule.rule.category
    title := rule.rule.name
    description := rule.rule.description ++ "\nTriggered by event: " ++ event.eventID
    triggeredByRule := rule.rule.id
    relatedEvents := "[\"" ++ event.eventID ++ "\"]" }

/-- Database writes performed by the detection engine during one event
evaluation. -/
inductive DbOp where
  | saveEvent (e : Event)
  | createIncident (i : Incident)

/-- Recognizer for event saves in a detection trace. -/
def DbOp.isSaveEvent : DbOp → Bool
  | .saveEvent _ => true
  | _ => false

/-- executeRuleActions from detection.go: create incident actions create an
incident row; execute playbook and notify actions only log; unknown action
types are logged and skipped. -/
def executeRuleActions (event : Event) (rule : Rule) : List DbOp :=
  rule.rule.actions.flatMap (fun action =>
    if action.type == "create_incident" then
      [DbOp.createIncident (mkIncident event rule)]
    else
      [])

/-- EvaluateEvent from detection.go: parse the normalized payload (an
unparseable payload returns an error before any rule is evaluated), run
every loaded rule and fire the actions of the matching ones, then stamp
the event's processed at field with the current time and save it.  The
returned trace lists the database writes in order. -/
def EvaluateEvent (rm : String → String → Option Bool) (rules : List Rule)
    (db : List Event) (now : Int) (event : Event) : Except String (List DbOp) :=
  match event.normalized with
  | none => Except.error "failed to parse normalized data"
  | some normalized =>
    let ops := rules.flatMap (fun rule =>
      if matchesRule rm db now event normalized rule then
        executeRuleActions event rule
      else
        [])
    Except.ok (ops ++ [DbOp.saveEvent { event with processedAt := some now }])

/-- C9: a rule with an empty condition list matches every event: the rule
match is the conjunction over all of the rule's conditions, which holds
vacuously when there are none. -/
theorem matchesRule_empty_conditions (rm : String → String → Option Bool)
    (db : List Event) (now : Int) (event : Event)
    (normalized : List (String × Value)) (rule : Rule)
    (h : rule.rule.conditions = []) :
    matchesRule rm db now event normalized rule = true := by
  simp [matchesRule, h]

/-- Sample event used by concrete witnesses. -/
def sampleEvent : Event :=
  ⟨"evt-1", 100, "auth-service", "authentication_failed", "high", "", some [], none⟩

/-- Rule with no conditions, used by the C9 witness. -/
def emptyConditionRule : Rule :=
  ⟨⟨"r-empty", "empty", "", "auth", "low", true, [], []⟩⟩

/-- Witness for C9 at a concrete rule and event. -/
theorem matchesRule_empty_conditions_witness :
    matchesRule (fun _ _ => some false) [] 0 sampleEvent [] emptyConditionRule = true :=
  matchesRule_empty_conditions (fun _ _ => some false) [] 0 sampleEvent [] emptyConditionRule rfl

/-- C5: a greater than condition is true exactly when both the resolved
field value and the condition value are floating point numbers and the
field value is strictly greater; every other combination of operand types,
including integer-typed and string-typed operands, evaluates to false. -/
theorem greaterThan_requires_floats (rm : String → String → Option Bool)
    (db : List Event) (now : Int) (event : Event)
    (normalized : List (String × Value)) (cond : Condition)
    (h : cond.operator = "greater_than") :
    (evaluateCondition rm db now event normalized cond = true ↔
      ∃ x y : ℚ,
        conditionFieldValue event normalized cond.field = Value.vfloat x ∧
          cond.value = Value.vfloat y ∧ y < x) := by
  obtain ⟨f, op, v, vs, pat, th, tw, cf⟩ := cond
  simp only at h
  subst h
  simp only [evaluateCondition]
  cases hf : conditionFieldValue event normalized f <;> cases v <;>
    simp_all

/-- Condition used by the C5 witness: field resolved from the normalized
payload as a float, compared against a float threshold. -/
def gtCondition : Condition :=
  ⟨"score", "greater_than", Value.vfloat 1, [], "", 0, 0, ""⟩

/-- Witness for C5 at a concrete condition whose operands are floats. -/
theorem greaterThan_requires_floats_witness :
    (evaluateCondition (fun _ _ => some false) [] 0 sampleEvent
        [("score", Value.vfloat 2)] gtCondition = true ↔
      ∃ x y : ℚ,
        conditionFieldValue sampleEvent [("score", Value.vfloat 2)]
            gtCondition.field = Value.vfloat x ∧
          gtCondition.value = Value.vfloat y ∧ y < x) :=
  greaterThan_requires_floats (fun _ _ => some false) [] 0 sampleEvent
    [("score", Value.vfloat 2)] gtCondition rfl

/-- C1: a count or count distinct condition matches exactly when the
windowed count described by the specification reaches the threshold: events
with timestamp at least now minus the time window whose column named by the
condition field equals the current event's event type, counted as distinct
values of the count field for count distinct with a nonempty count field and
as rows otherwise. -/
theorem countCondition_matches_iff_windowedCount (rm : String → String → Option Bool)
    (db : List Event) (now : Int) (event : Event)
    (normalized : List (String × Value)) (cond : Condition)
    (h : cond.operator = "count" ∨ cond.operator = "count_distinct") :
    (evaluateCondition rm db now event normalized cond = true ↔
      cond.threshold ≤ windowedEventCount db now event cond) := by
  have hq : List.filter (fun e => eventColumn e cond.field == some event.eventType)
        (List.filter (fun e => decide (now - cond.timeWindow ≤ e.timestamp)) db) =
      List.filter (fun e =>
        decide (now - cond.timeWindow ≤ e.timestamp) &&
          (eventColumn e cond.field == some event.eventType)) db := by
    rw [List.filter_filter]
    exact List.filter_congr (fun e _ => Bool.and_comm _ _)
  have key : evaluateCountCondition db now event cond = true ↔
      cond.threshold ≤ windowedEventCount db now event cond := by
    simp only [evaluateCountCondition, windowedEventCount, hq, decide_eq_true_eq]
  obtain ⟨f, op, v, vs, pat, th, tw, cf⟩ := cond
  simp only at h
  rcases h with h | h <;> subst h <;>
    simpa only [evaluateCondition] using key

/-- Condition used by the C1 witness. -/
def countCondition : Condition :=
  ⟨"event_type", "count", Value.vnull, [], "", 2, 300, ""⟩

/-- Witness for C1 at a concrete database of persisted events. -/
theorem countCondition_matches_iff_windowedCount_witness :
    (evaluateCondition (fun _ _ => some false)
        [sampleEvent, { sampleEvent with eventID := "evt-2", timestamp := 50 }]
        100 sampleEvent [] countCondition = true ↔
      countCondition.threshold ≤
        windowedEventCount
          [sampleEvent, { sampleEvent with eventID := "evt-2", timestamp := 50 }]
          100 sampleEvent countCondition) :=
  countCondition_matches_iff_windowedCount (fun _ _ => some false)
    [sampleEvent, { sampleEvent with eventID := "evt-2", timestamp := 50 }]
    100 sampleEvent [] countCondition (Or.inl rfl)

/-- C8: execute with an unknown playbook id fails with a playbook not found
error; with a known playbook and a missing required input it fails with a
missing input error naming the first missing input in declaration order; in
both failure cases the dispatch trace is empty, so no step is executed and
no execution context is produced. -/
theorem executePlaybook_validation
    (dispatch : String → List (String × Value) → Option Value × Option String)
    (playbooks : List (String × Playbook)) (playbookID : String)
    (inputs : List (String × Value)) :
    (lookupPlaybook playbooks playbookID = none →
      ExecutePlaybook dispatch playbooks playbookID inputs =
        ([], some ("playbook not found: " ++ playbookID))) ∧
    (∀ pb n, lookupPlaybook playbooks playbookID = some pb →
      firstMissingRequiredInput pb.playbook.inputs inputs = some n →
      ExecutePlaybook dispatch playbooks playbookID inputs =
        ([], some ("missing required input: " ++ n))) ∧
    (∀ declared : List PlaybookInput,
      firstMissingRequiredInput declared inputs =
        ((declared.filter (fun d =>
            d.required && !(inputs.any (fun kv => kv.1 == d.name)))).head?).map
          PlaybookInput.name) := by
  refine ⟨?_, ?_, ?_⟩
  · intro h
    simp [ExecutePlaybook, h]
  · intro pb n hpb hval
    simp [ExecutePlaybook, hpb, hval]
  · intro declared
    induction declared with
    | nil => rfl
    | cons d rest ih =>
      by_cases hd : (d.required && !(inputs.any (fun kv => kv.1 == d.name))) = true
      · simp [firstMissingRequiredInput, hd]
      · simp [firstMissingRequiredInput, hd, ih]

/-- Playbook requiring one input, used by the C8 witness. -/
def needyPlaybook : Playbook :=
  ⟨⟨"pb-1", "containment", "", "1", [⟨"incident_id", true⟩], []⟩⟩

/-- Witness for C8: the unknown-id case and the missing-input case at
concrete values. -/
theorem executePlaybook_validation_witness :
    ExecutePlaybook (fun _ _ => (none, none)) [("pb-1", needyPlaybook)] "nope" [] =
      ([], some "playbook not found: nope") ∧
    ExecutePlaybook (fun _ _ => (none, none)) [("pb-1", needyPlaybook)] "pb-1" [] =
      ([], some "missing required input: incident_id") :=
  ⟨(executePlaybook_validation (fun _ _ => (none, none)) [("pb-1", needyPlaybook)]
      "nope" []).1 rfl,
   (executePlaybook_validation (fun _ _ => (none, none)) [("pb-1", needyPlaybook)]
      "pb-1" []).2.1 needyPlaybook "incident_id" rfl rfl⟩

/-- C10: when a step's dispatch returns an error and its on failure field is
any nonempty string other than abort or continue, the run behaves exactly as
if the field were continue: the step loop does not abort, the step's error
is stored into the context under the step id, and execution proceeds to the
next step. -/
theorem unknownOnFailure_behaves_like_continue
    (dispatch : String → List (String × Value) → Option Value × Option String)
    (step : PlaybookStep) (post : List PlaybookStep)
    (context : List (String × Value)) (e : String)
    (herr : (dispatch step.action (interpolateParams context step.parameters)).2 = some e)
    (h1 : step.onFailure ≠ "abort") (h2 : step.onFailure ≠ "")
    (h3 : step.onFailure ≠ "continue") :
    execSteps dispatch (step :: post) context =
      execSteps dispatch ({ step with onFailure := "continue" } :: post) context ∧
    (execSteps dispatch (step :: post) context).trace =
      ⟨step.id, step.action, interpolateParams context step.parameters,
        (dispatch step.action (interpolateParams context step.parameters)).1, some e⟩ ::
      (execSteps dispatch post
        (storeStepResult context step.id
          (dispatch step.action (interpolateParams context step.parameters)).1
          (some e))).trace := by
  have hb1 : (step.onFailure == "abort") = false := by
    simpa using h1
  have hb2 : (step.onFailure == "") = false := by
    simpa using h2
  constructor
  · simp [execSteps, herr, hb1, hb2]
  · simp [execSteps, herr, hb1, hb2]

/-- Step with a misspelled on failure value, used by the C10 witness. -/
def retryStep : PlaybookStep :=
  ⟨"s1", "first", "block_ip", [], "retry", ""⟩

/-- Witness for C10 at a concrete failing dispatch. -/
theorem unknownOnFailure_behaves_like_continue_witness :
    execSteps (fun _ _ => (none, some "boom")) [retryStep] [] =
      execSteps (fun _ _ => (none, some "boom"))
        [{ retryStep with onFailure := "continue" }] [] ∧
    (execSteps (fun _ _ => (none, some "boom")) [retryStep] []).trace =
      ⟨retryStep.id, retryStep.action, interpolateParams [] retryStep.parameters,
        (none : Option Value), some "boom"⟩ ::
      (execSteps (fun _ _ => (none, some "boom")) []
        (storeStepResult [] retryStep.id none (some "boom"))).trace :=
  unknownOnFailure_behaves_like_continue (fun _ _ => (none, some "boom"))
    retryStep [] [] "boom" rfl
    (by decide) (by decide) (by decide)

/-- Helper: a flatMap whose pieces contain no element satisfying a predicate
filters to the empty list. -/
theorem filter_flatMap_nil {α β : Type} (p : β → Bool) (f : α → List β)
    (l : List α) (h : ∀ a, (f a).filter p = []) : (l.flatMap f).filter p = [] := by
  induction l with
  | nil => rfl
  | cons a t ih => simp [List.flatMap_cons, List.filter_append, h, ih]

/-- Helper: rule actions never save the event row (create incident actions
create incident rows, everything else only logs). -/
theorem executeRuleActions_filter_saveEvent (event : Event) (rule : Rule) :
    (executeRuleActions event rule).filter DbOp.isSaveEvent = [] := by
  unfold executeRuleActions
  apply filter_flatMap_nil
  intro a
  by_cases ha : (a.type == "create_incident") = true
  · simp [ha, DbOp.isSaveEvent]
  · simp [ha]

/-- C4: for every event whose normalized payload parses, evaluation against
the loaded rules succeeds and the resulting database trace contains exactly
one save of the event row, carrying the processed at field stamped with the
current time (in particular a non-null value), whatever the rules and
whether or not any matched. -/
theorem evaluateEvent_stamps_processedAt_once (rm : String → String → Option Bool)
    (rules : List Rule) (db : List Event) (now : Int) (event : Event)
    (m : List (String × Value)) (h : event.normalized = some m) :
    ∃ ops, EvaluateEvent rm rules db now event = Except.ok ops ∧
      ops.filter DbOp.isSaveEvent =
        [DbOp.saveEvent { event with processedAt := some now }] ∧
      ({ event with processedAt := some now } : Event).processedAt = some now := by
  unfold EvaluateEvent
  rw [h]
  refine ⟨_, rfl, ?_, rfl⟩
  rw [List.filter_append]
  rw [filter_flatMap_nil DbOp.isSaveEvent _ rules ?_]
  · simp [DbOp.isSaveEvent]
  · intro r
    by_cases hr : matchesRule rm db now event m r = true
    · simp [hr, executeRuleActions_filter_saveEvent]
    · simp [hr]

/-- Witness for C4 at a concrete event with a parseable payload and a rule
that matches it. -/
theorem evaluateEvent_stamps_processedAt_once_witness :
    ∃ ops, EvaluateEvent (fun _ _ => some false) [emptyConditionRule] [] 100
        sampleEvent = Except.ok ops ∧
      ops.filter DbOp.isSaveEvent =
        [DbOp.saveEvent { sampleEvent with processedAt := some 100 }] ∧
      ({ sampleEvent with processedAt := some 100 } : Event).processedAt = some 100 :=
  evaluateEvent_stamps_processedAt_once (fun _ _ => some false)
    [emptyConditionRule] [] 100 sampleEvent [] rfl

/-- C3 counterexample: dispatching an unknown action name returns the
unknown action error before any action log row is written, so the dispatch
persists zero ActionLog records, not exactly one. -/
theorem registryExecute_unknown_action_writes_no_log :
    (registryExecute [] 0 0 "does_not_exist" []).2 = [] ∧
    (registryExecute [] 0 0 "does_not_exist" []).1.2 =
      some "unknown action type: does_not_exist" :=
  ⟨rfl, rfl⟩

/-- C3 amended: for every dispatch whose action name is registered, exactly
one ActionLog record is persisted, created in running status with the
serialized parameters before the handler runs and then saved with status
completed and the serialized result, or failed and the error message,
together with the execution time; an unregistered action name returns an
unknown action error without writing any ActionLog. -/
theorem registryExecute_logs_exactly_once_when_known
    (handlers : List (String × (List (String × Value) → Option Value × Option String)))
    (kv : String × (List (String × Value) → Option Value × Option String))
    (startTime endTime : Int) (actionType : String)
    (params : List (String × Value))
    (h : handlers.find? (fun p => p.1 == actionType) = some kv) :
    (registryExecute handlers startTime endTime actionType params).1 = kv.2 params ∧
    (registryExecute handlers startTime endTime actionType params).2 =
      [LogOp.create ⟨actionType, "running", jsonOfParams params, none, none, 0, none⟩,
       LogOp.save
         (match (kv.2 params).2 with
          | some e =>
            ⟨actionType, "failed", jsonOfParams params, none, some e,
              endTime - startTime, some endTime⟩
          | none =>
            ⟨actionType, "completed", jsonOfParams params,
              (kv.2 params).1.map jsonOfValue, none, endTime - startTime,
              some endTime⟩)] := by
  unfold registryExecute
  rw [h]
  exact ⟨rfl, rfl⟩

/-- Handler used by the C3 witness: always succeeds with a string result. -/
def noopHandler : List (String × Value) → Option Value × Option String :=
  fun _ => (some (Value.vstr "ok"), none)

/-- Witness for C3 amended at a concrete registered handler. -/
theorem registryExecute_logs_exactly_once_when_known_witness :
    (registryExecute [("noop", noopHandler)] 0 5 "noop" []).1 = noopHandler [] ∧
    (registryExecute [("noop", noopHandler)] 0 5 "noop" []).2 =
      [LogOp.create ⟨"noop", "running", jsonOfParams [], none, none, 0, none⟩,
       LogOp.save
         (match (noopHandler []).2 with
          | some e => ⟨"noop", "failed", jsonOfParams [], none, some e, 5 - 0, some 5⟩
          | none =>
            ⟨"noop", "completed", jsonOfParams [], (noopHandler []).1.map jsonOfValue,
              none, 5 - 0, some 5⟩)] :=
  registryExecute_logs_exactly_once_when_known [("noop", noopHandler)]
    ("noop", noopHandler) 0 5 "noop" [] rfl

/-- C2 counterexample: a dotted path whose final segment is an absent key
does not echo the literal path text: the traversal consumes the last segment
on a map, reads nil for the absent key, and returns nil, which interpolates
as the angle-bracketed nil text.  Here the path is inputs.foo against a
context whose inputs map lacks the key foo. -/
theorem resolveVariable_absent_final_segment_returns_nil :
    resolveVariable "inputs.foo" [("inputs", Value.vmap [])] = Value.vnull ∧
    resolveVariable "inputs.foo" [("inputs", Value.vmap [])] ≠
      Value.vstr "inputs.foo" ∧
    interpolateString "\x7b\x7b inputs.foo \x7d\x7d" [("inputs", Value.vmap [])] =
      "<nil>" := by
  refine ⟨rfl, ?_, rfl⟩
  intro hc
  have : Value.vnull = Value.vstr "inputs.foo" := by
    rw [← hc]
    rfl
  exact Value.noConfusion this

/-- Characterization of the traversal points at which resolveVariable echoes
the path: some segment is consumed while the current value is not a nested
mapping (including the nil obtained from an absent key at an earlier
segment). -/
def echoesPath : List (List Char) → Value → Bool
  | [], _ => false
  | part :: rest, current =>
    match current with
    | .vmap m => echoesPath rest (mapGet m (String.mk part))
    | _ => true

/-- Helper for C2 amended: the resolveVariable traversal returns the literal
path exactly when the traversal hits a non-map with segments remaining. -/
theorem resolveParts_echo (path : String) :
    ∀ (parts : List (List Char)) (current : Value),
      echoesPath parts current = true →
      resolveParts path parts current = Value.vstr path := by
  intro parts
  induction parts with
  | nil =>
    intro current h
    simp [echoesPath] at h
  | cons part rest ih =>
    intro current h
    cases current with
    | vmap m =>
      simp only [echoesPath] at h
      simpa only [resolveParts] using ih (mapGet m (String.mk part)) h
    | vnull => rfl
    | vstr s => rfl
    | vfloat q => rfl
    | vint n => rfl
    | vbool b => rfl
    | vlist xs => rfl
    | verr msg => rfl

/-- C2 amended: resolution echoes the literal path text exactly in the runs
in which a path segment is consumed while the traversed value is not a
nested mapping — which covers an absent key at any non-final segment, since
the nil it produces fails the map check at the next segment — and in
particular interpolating the span steps.missing.output against a context
whose steps map lacks the key missing yields the literal string; an absent
key at the final segment instead resolves to nil (see the counterexample
theorem for the rendering). -/
theorem resolveVariable_echoes_path (path : String)
    (context : List (String × Value))
    (h : echoesPath (splitPath path.toList) (Value.vmap context) = true) :
    resolveVariable path context = Value.vstr path ∧
    interpolateString "\x7b\x7b steps.missing.output \x7d\x7d"
        [("inputs", Value.vmap []), ("steps", Value.vmap [("done", Value.vmap [])])] =
      "steps.missing.output" :=
  ⟨resolveParts_echo path (splitPath path.toList) (Value.vmap context) h, rfl⟩

/-- Witness for C2 amended at the path of the claim's instance. -/
theorem resolveVariable_echoes_path_witness :
    resolveVariable "steps.missing.output"
        [("steps", Value.vmap [("done", Value.vmap [])])] =
      Value.vstr "steps.missing.output" ∧
    interpolateString "\x7b\x7b steps.missing.output \x7d\x7d"
        [("inputs", Value.vmap []), ("steps", Value.vmap [("done", Value.vmap [])])] =
      "steps.missing.output" :=
  resolveVariable_echoes_path "steps.missing.output"
    [("steps", Value.vmap [("done", Value.vmap [])])] (by decide)

/-- Helper: composition of the step loop over an append, in the case where
the first part runs to completion: the trace concatenates and the second
part starts from the first part's final context. -/
theorem execSteps_append_ok
    (dispatch : String → List (String × Value) → Option Value × Option String)
    (as bs : List PlaybookStep) :
    ∀ context, (execSteps dispatch as context).terminal = none →
      execSteps dispatch (as ++ bs) context =
        ⟨(execSteps dispatch as context).trace ++
            (execSteps dispatch bs (execSteps dispatch as context).context).trace,
          (execSteps dispatch bs (execSteps dispatch as context).context).context,
          (execSteps dispatch bs (execSteps dispatch as context).context).terminal⟩ := by
  induction as with
  | nil =>
    intro context _
    rfl
  | cons s rest ih =>
    intro context h
    cases he : (dispatch s.action (interpolateParams context s.parameters)).2 with
    | none =>
      have h' : (execSteps dispatch rest
          (storeStepResult context s.id
            (dispatch s.action (interpolateParams context s.parameters)).1
            none)).terminal = none := by
        simpa [execSteps, he] using h
      simp [execSteps, he, ih _ h']
    | some e =>
      by_cases hb : (s.onFailure == "abort" || s.onFailure == "") = true
      · exfalso
        simp [execSteps, he, hb] at h
      · have h' : (execSteps dispatch rest
            (storeStepResult context s.id
              (dispatch s.action (interpolateParams context s.parameters)).1
              (some e))).terminal = none := by
          simpa [execSteps, he, hb] using h
        simp [execSteps, he, hb, ih _ h']

/-- C6: in a playbook run that reaches a step whose dispatch returns an
error and whose on failure field is abort or unset, the run's trace stops at
that step — no subsequent step of the playbook is dispatched — and the run
terminates with that step's error (wrapped with the step id) as the terminal
error. -/
theorem playbook_abort_stops_run
    (dispatch : String → List (String × Value) → Option Value × Option String)
    (playbooks : List (String × Playbook)) (playbookID : String)
    (inputs : List (String × Value)) (pb : Playbook)
    (pre : List PlaybookStep) (step : PlaybookStep) (post : List PlaybookStep)
    (e : String)
    (hpb : lookupPlaybook playbooks playbookID = some pb)
    (hval : firstMissingRequiredInput pb.playbook.inputs inputs = none)
    (hsteps : pb.playbook.steps = pre ++ step :: post)
    (hpre : (execSteps dispatch pre [("inputs", Value.vmap inputs)]).terminal = none)
    (herr : (dispatch step.action
        (interpolateParams
          (execSteps dispatch pre [("inputs", Value.vmap inputs)]).context
          step.parameters)).2 = some e)
    (hof : step.onFailure = "abort" ∨ step.onFailure = "") :
    ExecutePlaybook dispatch playbooks playbookID inputs =
      ((execSteps dispatch pre [("inputs", Value.vmap inputs)]).trace ++
        [⟨step.id, step.action,
          interpolateParams
            (execSteps dispatch pre [("inputs", Value.vmap inputs)]).context
            step.parameters,
          (dispatch step.action
            (interpolateParams
              (execSteps dispatch pre [("inputs", Value.vmap inputs)]).context
              step.parameters)).1,
          some e⟩],
        some ("step " ++ step.id ++ " failed: " ++ e)) := by
  have hb : (step.onFailure == "abort" || step.onFailure == "") = true := by
    rcases hof with h | h <;> simp [h]
  simp only [ExecutePlaybook, hpb, hval, hsteps]
  rw [execSteps_append_ok dispatch pre (step :: post) [("inputs", Value.vmap inputs)] hpre]
  simp [execSteps, herr, hb]

/-- Playbook with one aborting step followed by one more step, used by the
C6 witness. -/
def abortPlaybook : Playbook :=
  ⟨⟨"pb-abort", "abort demo", "", "1", [],
    [⟨"s1", "first", "block_ip", [], "", ""⟩,
     ⟨"s2", "second", "notify", [], "", ""⟩]⟩⟩

/-- Witness for C6: the first step fails with the default on failure value
and the second step is never dispatched. -/
theorem playbook_abort_stops_run_witness :
    ExecutePlaybook (fun _ _ => (none, some "boom")) [("pb-abort", abortPlaybook)]
        "pb-abort" [] =
      ((execSteps (fun _ _ => (none, some "boom")) []
          [("inputs", Value.vmap [])]).trace ++
        [⟨"s1", "block_ip",
          interpolateParams
            (execSteps (fun _ _ => (none, some "boom")) []
              [("inputs", Value.vmap [])]).context [],
          (none : Option Value), some "boom"⟩],
        some ("step " ++ "s1" ++ " failed: " ++ "boom")) :=
  playbook_abort_stops_run (fun _ _ => (none, some "boom"))
    [("pb-abort", abortPlaybook)] "pb-abort" [] abortPlaybook
    [] ⟨"s1", "first", "block_ip", [], "", ""⟩
    [⟨"s2", "second", "notify", [], "", ""⟩] "boom"
    rfl rfl rfl rfl rfl (Or.inr rfl)

/-- Helper: writing a key whose head entry differs leaves the head entry in
place. -/
theorem mapSet_cons_ne (kv : String × Value) (t : List (String × Value))
    (k : String) (v : Value) (hk : (kv.1 == k) = false) :
    mapSet (kv :: t) k v = kv :: mapSet t k v := by
  unfold mapSet
  by_cases ht : t.any (fun p => p.1 == k) = true
  · simp only [List.any_cons, hk, ht, Bool.false_or, if_true, List.map_cons]
    simp
  · simp [List.any_cons, hk, ht]

/-- Helper: reading back a key just written returns the written value. -/
theorem mapGet_mapSet_self (k : String) (v : Value) :
    ∀ m : List (String × Value), mapGet (mapSet m k v) k = v := by
  intro m
  induction m with
  | nil => simp [mapGet, mapSet, List.find?]
  | cons kv t ih =>
    by_cases hk : (kv.1 == k) = true
    · have hrw : mapSet (kv :: t) k v =
          (k, v) :: t.map (fun p => if p.1 == k then (k, v) else p) := by
        unfold mapSet
        simp [List.any_cons, hk]
        intro hn
        exact absurd (by simpa using hk) hn
      rw [hrw]
      simp [mapGet, List.find?]
    · have hk' : (kv.1 == k) = false := by
        simpa using hk
      rw [mapSet_cons_ne kv t k v hk']
      simpa [mapGet, List.find?, hk'] using ih

/-- Helper: a dot-free segment splits to itself. -/
theorem splitPath_no_dot (l : List Char) (h : ∀ c ∈ l, c ≠ '.') :
    splitPath l = [l] := by
  induction l with
  | nil => rfl
  | cons c t ih =>
    have hc : c ≠ '.' := h c (List.mem_cons_self c t)
    have ht := ih (fun x hx => h x (List.mem_cons_of_mem c hx))
    rw [show splitPath (c :: t) =
        (if c = '.' then [] :: splitPath t else
          match splitPath t with
          | s :: ss => (c :: s) :: ss
          | [] => [[c]]) from rfl]
    rw [if_neg hc, ht]

/-- Helper: splitting past a dot-free first segment peels it off. -/
theorem splitPath_append (l r : List Char) (h : ∀ c ∈ l, c ≠ '.') :
    splitPath (l ++ '.' :: r) = l :: splitPath r := by
  induction l with
  | nil =>
    rw [List.nil_append,
      show splitPath ('.' :: r) =
        (if '.' = '.' then [] :: splitPath r else
          match splitPath r with
          | s :: ss => ('.' :: s) :: ss
          | [] => [['.']]) from rfl]
    rw [if_pos rfl]
  | cons c t ih =>
    have hc : c ≠ '.' := h c (List.mem_cons_self c t)
    have ht := ih (fun x hx => h x (List.mem_cons_of_mem c hx))
    rw [List.cons_append,
      show splitPath (c :: (t ++ '.' :: r)) =
        (if c = '.' then [] :: splitPath (t ++ '.' :: r) else
          match splitPath (t ++ '.' :: r) with
          | s :: ss => (c :: s) :: ss
          | [] => [[c]]) from rfl]
    rw [if_neg hc, ht]

/-- Helper: a pattern that is a prefix is found at position zero. -/
theorem idxOf_of_isPrefixOf (pat l : List Char) (h : pat.isPrefixOf l = true) :
    idxOf pat l = some 0 := by
  cases l <;> simp [idxOf, h]

/-- Helper: the first occurrence of a doubled character lying past a stretch
free of that character is right after the stretch. -/
theorem idxOf_two_append (c : Char) (pre rest : List Char)
    (h : ∀ x ∈ pre, x ≠ c) :
    idxOf [c, c] (pre ++ c :: c :: rest) = some pre.length := by
  induction pre with
  | nil =>
    apply idxOf_of_isPrefixOf
    simp [List.isPrefixOf]
  | cons x t ih =>
    have hx : x ≠ c := h x (List.mem_cons_self x t)
    have hcx : (c == x) = false := by
      exact beq_eq_false_iff_ne.mpr (Ne.symm hx)
    have hpre : ([c, c].isPrefixOf (x :: (t ++ c :: c :: rest))) = false := by
      rw [show ([c, c].isPrefixOf (x :: (t ++ c :: c :: rest))) =
          (c == x && [c].isPrefixOf (t ++ c :: c :: rest)) from rfl,
        hcx, Bool.false_and]
    have ht := ih (fun y hy => h y (List.mem_cons_of_mem x hy))
    simp [idxOf, hpre, ht]

/-- Helper: rebuilding a string from its character list is the identity. -/
theorem strMk_toList (s : String) : String.mk s.toList = s := by
  cases s
  rfl

/-- Helper: the rewriting loop stops when the opening delimiter is absent. -/
theorem interpolateLoop_done (ctx : List (String × Value)) (fuel : Nat)
    (result : List Char) (h : idxOf openDelim result = none) :
    interpolateLoop ctx fuel result = result := by
  unfold interpolateLoop
  rw [h]

/-- Helper: one substitution of the rewriting loop, for a string in which
both delimiters are found. -/
theorem interpolateLoop_step (ctx : List (String × Value)) (fuel : Nat)
    (result : List Char) (start endRel : Nat)
    (hop : idxOf openDelim result = some start)
    (hcl : idxOf closeDelim (result.drop start) = some endRel) :
    interpolateLoop ctx (fuel + 1) result =
      interpolateLoop ctx fuel
        (result.take start ++
          (goFormat (resolveVariable
            (String.mk (trimSpace
              ((result.drop (start + 2)).take (endRel + start - (start + 2))))) ctx)).toList ++
          result.drop (endRel + start + 2)) := by
  conv_lhs => rw [interpolateLoop]
  simp only [hop, hcl]

/-- Helper: trimming the whitespace around the span content of the step
error template leaves the dotted path. -/
theorem trimSpace_span (sid : List Char) :
    trimSpace ([' ', 's', 't', 'e', 'p', 's', '.'] ++ sid ++
        ['.', 'e', 'r', 'r', 'o', 'r', ' ']) =
      ['s', 't', 'e', 'p', 's', '.'] ++ sid ++ ['.', 'e', 'r', 'r', 'o', 'r'] := by
  unfold trimSpace
  simp [List.dropWhile_cons, isSpaceChar, List.reverse_append, List.dropWhile_append]

set_option maxHeartbeats 1000000 in
/-- Helper: full evaluation of the rewriting loop on a template consisting
of one step error span, for any step id free of closing braces, when the
substituted value reintroduces no opening delimiter. -/
theorem interpolateLoop_span (ctx : List (String × Value)) (sid : List Char)
    (v : Value) (fuel : Nat)
    (hcb : ∀ c ∈ sid, c ≠ cbChar)
    (hres : resolveVariable
        (String.mk (['s', 't', 'e', 'p', 's', '.'] ++ sid ++
          ['.', 'e', 'r', 'r', 'o', 'r'])) ctx = v)
    (hplain : idxOf openDelim (goFormat v).toList = none) :
    interpolateLoop ctx (fuel + 1)
      ([obChar, obChar, ' ', 's', 't', 'e', 'p', 's', '.'] ++ sid ++
        ['.', 'e', 'r', 'r', 'o', 'r', ' ', cbChar, cbChar]) =
      (goFormat v).toList := by
  have hop : idxOf openDelim
      ([obChar, obChar, ' ', 's', 't', 'e', 'p', 's', '.'] ++ sid ++
        ['.', 'e', 'r', 'r', 'o', 'r', ' ', cbChar, cbChar]) = some 0 := by
    apply idxOf_of_isPrefixOf
    simp [openDelim, List.isPrefixOf, List.cons_append]
  have hmem : ∀ x ∈ ([obChar, obChar, ' ', 's', 't', 'e', 'p', 's', '.'] ++ sid ++
      ['.', 'e', 'r', 'r', 'o', 'r', ' ']), x ≠ cbChar := by
    intro x hx
    rcases List.mem_append.mp hx with hleft | h7
    · rcases List.mem_append.mp hleft with h9 | hsid
      · simp only [List.mem_cons, List.not_mem_nil, or_false] at h9
        rcases h9 with rfl | rfl | rfl | rfl | rfl | rfl | rfl | rfl | rfl <;> decide
      · exact hcb x hsid
    · simp only [List.mem_cons, List.not_mem_nil, or_false] at h7
      rcases h7 with rfl | rfl | rfl | rfl | rfl | rfl | rfl <;> decide
  have hlen16 : ([obChar, obChar, ' ', 's', 't', 'e', 'p', 's', '.'] ++ sid ++
      ['.', 'e', 'r', 'r', 'o', 'r', ' ']).length = 16 + sid.length := by
    simp [List.length_append]
    omega
  have hcl : idxOf closeDelim
      (([obChar, obChar, ' ', 's', 't', 'e', 'p', 's', '.'] ++ sid ++
        ['.', 'e', 'r', 'r', 'o', 'r', ' ', cbChar, cbChar]).drop 0) =
      some (16 + sid.length) := by
    rw [List.drop_zero]
    rw [show ([obChar, obChar, ' ', 's', 't', 'e', 'p', 's', '.'] ++ sid ++
        ['.', 'e', 'r', 'r', 'o', 'r', ' ', cbChar, cbChar]) =
      (([obChar, obChar, ' ', 's', 't', 'e', 'p', 's', '.'] ++ sid ++
        ['.', 'e', 'r', 'r', 'o', 'r', ' ']) ++ cbChar :: cbChar :: []) by
        simp [List.append_assoc]]
    rw [show closeDelim = [cbChar, cbChar] from rfl]
    rw [idxOf_two_append cbChar _ [] hmem, hlen16]
  rw [interpolateLoop_step ctx fuel _ 0 (16 + sid.length) hop hcl]
  rw [show (16 + sid.length + 0 - (0 + 2)) = 14 + sid.length by omega]
  rw [show List.drop (0 + 2)
      ([obChar, obChar, ' ', 's', 't', 'e', 'p', 's', '.'] ++ sid ++
        ['.', 'e', 'r', 'r', 'o', 'r', ' ', cbChar, cbChar]) =
      [' ', 's', 't', 'e', 'p', 's', '.'] ++ sid ++
        ['.', 'e', 'r', 'r', 'o', 'r', ' ', cbChar, cbChar] from rfl]
  rw [show ([' ', 's', 't', 'e', 'p', 's', '.'] ++ sid ++
      ['.', 'e', 'r', 'r', 'o', 'r', ' ', cbChar, cbChar]) =
    (([' ', 's', 't', 'e', 'p', 's', '.'] ++ sid ++
      ['.', 'e', 'r', 'r', 'o', 'r', ' ']) ++ [cbChar, cbChar]) by
      simp [List.append_assoc]]
  rw [List.take_left' (by simp [List.length_append]; omega :
    ([' ', 's', 't', 'e', 'p', 's', '.'] ++ sid ++
      ['.', 'e', 'r', 'r', 'o', 'r', ' ']).length = 14 + sid.length)]
  rw [trimSpace_span, hres]
  rw [show (16 + sid.length + 0 + 2) =
    ([obChar, obChar, ' ', 's', 't', 'e', 'p', 's', '.'] ++ sid ++
      ['.', 'e', 'r', 'r', 'o', 'r', ' ', cbChar, cbChar]).length by
      simp [List.length_append]
      omega]
  rw [List.drop_length, List.take_zero]
  simp only [List.nil_append, List.append_nil]
  exact interpolateLoop_done ctx fuel _ hplain

set_option maxHeartbeats 1000000 in
/-- C7: in a playbook run that reaches a step whose dispatch returns an
error and whose on failure field is continue, the run does not abort:
execution proceeds into the remaining steps from the updated context, the
failed step's error is recorded in the context under steps, step id, error,
and a later step's interpolation of the corresponding template span
resolves to that recorded error message (for a step id free of dots and of
closing braces, and an error message that reintroduces no opening
delimiter). -/
theorem playbook_continue_records_error
    (dispatch : String → List (String × Value) → Option Value × Option String)
    (playbooks : List (String × Playbook)) (playbookID : String)
    (inputs : List (String × Value)) (pb : Playbook)
    (pre : List PlaybookStep) (step : PlaybookStep) (post : List PlaybookStep)
    (e : String)
    (hpb : lookupPlaybook playbooks playbookID = some pb)
    (hval : firstMissingRequiredInput pb.playbook.inputs inputs = none)
    (hsteps : pb.playbook.steps = pre ++ step :: post)
    (hpre : (execSteps dispatch pre [("inputs", Value.vmap inputs)]).terminal = none)
    (herr : (dispatch step.action
        (interpolateParams
          (execSteps dispatch pre [("inputs", Value.vmap inputs)]).context
          step.parameters)).2 = some e)
    (hof : step.onFailure = "continue")
    (hdot : ∀ c ∈ step.id.toList, c ≠ '.')
    (hcb : ∀ c ∈ step.id.toList, c ≠ cbChar)
    (hplain : idxOf openDelim e.toList = none) :
    ExecutePlaybook dispatch playbooks playbookID inputs =
      ((execSteps dispatch pre [("inputs", Value.vmap inputs)]).trace ++
        ⟨step.id, step.action,
          interpolateParams
            (execSteps dispatch pre [("inputs", Value.vmap inputs)]).context
            step.parameters,
          (dispatch step.action
            (interpolateParams
              (execSteps dispatch pre [("inputs", Value.vmap inputs)]).context
              step.parameters)).1,
          some e⟩ ::
        (execSteps dispatch post
          (storeStepResult
            (execSteps dispatch pre [("inputs", Value.vmap inputs)]).context
            step.id
            (dispatch step.action
              (interpolateParams
                (execSteps dispatch pre [("inputs", Value.vmap inputs)]).context
                step.parameters)).1
            (some e))).trace,
        (execSteps dispatch post
          (storeStepResult
            (execSteps dispatch pre [("inputs", Value.vmap inputs)]).context
            step.id
            (dispatch step.action
              (interpolateParams
                (execSteps dispatch pre [("inputs", Value.vmap inputs)]).context
                step.parameters)).1
            (some e))).terminal) ∧
    resolveVariable ("steps." ++ step.id ++ ".error")
        (storeStepResult
          (execSteps dispatch pre [("inputs", Value.vmap inputs)]).context
          step.id
          (dispatch step.action
            (interpolateParams
              (execSteps dispatch pre [("inputs", Value.vmap inputs)]).context
              step.parameters)).1
          (some e)) = Value.verr e ∧
    interpolateString ("\x7b\x7b steps." ++ step.id ++ ".error \x7d\x7d")
        (storeStepResult
          (execSteps dispatch pre [("inputs", Value.vmap inputs)]).context
          step.id
          (dispatch step.action
            (interpolateParams
              (execSteps dispatch pre [("inputs", Value.vmap inputs)]).context
              step.parameters)).1
          (some e)) = e := by
  have hofb1 : (step.onFailure == "abort") = false := by
    rw [hof]
    decide
  have hofb2 : (step.onFailure == "") = false := by
    rw [hof]
    decide
  have hpath : ("steps." ++ step.id ++ ".error").toList =
      ['s', 't', 'e', 'p', 's', '.'] ++ step.id.toList ++
        ['.', 'e', 'r', 'r', 'o', 'r'] := by
    show ("steps." ++ step.id ++ ".error").data = _
    rw [String.data_append, String.data_append]
    rfl
  have hresolve : resolveVariable ("steps." ++ step.id ++ ".error")
      (storeStepResult
        (execSteps dispatch pre [("inputs", Value.vmap inputs)]).context
        step.id
        (dispatch step.action
          (interpolateParams
            (execSteps dispatch pre [("inputs", Value.vmap inputs)]).context
            step.parameters)).1
        (some e)) = Value.verr e := by
    unfold resolveVariable
    rw [hpath]
    rw [show ['s', 't', 'e', 'p', 's', '.'] ++ step.id.toList ++
        ['.', 'e', 'r', 'r', 'o', 'r'] =
      ['s', 't', 'e', 'p', 's'] ++ '.' ::
        (step.id.toList ++ '.' :: ['e', 'r', 'r', 'o', 'r']) by
        simp [List.append_assoc]]
    rw [splitPath_append ['s', 't', 'e', 'p', 's'] _ (by decide)]
    rw [splitPath_append step.id.toList _ hdot]
    rw [splitPath_no_dot ['e', 'r', 'r', 'o', 'r'] (by decide)]
    unfold storeStepResult
    simp only [resolveParts]
    rw [show String.mk ['s', 't', 'e', 'p', 's'] = "steps" from rfl]
    rw [mapGet_mapSet_self]
    simp only [resolveParts]
    rw [strMk_toList, mapGet_mapSet_self]
    simp only [resolveParts]
    rw [show String.mk ['e', 'r', 'r', 'o', 'r'] = "error" from rfl]
    simp [mapGet, List.find?]
  refine ⟨?_, hresolve, ?_⟩
  · simp only [ExecutePlaybook, hpb, hval, hsteps]
    rw [execSteps_append_ok dispatch pre (step :: post) _ hpre]
    simp [execSteps, herr, hofb1, hofb2]
  · have htpl : ("\x7b\x7b steps." ++ step.id ++ ".error \x7d\x7d").toList =
        [obChar, obChar, ' ', 's', 't', 'e', 'p', 's', '.'] ++ step.id.toList ++
          ['.', 'e', 'r', 'r', 'o', 'r', ' ', cbChar, cbChar] := by
      show ("\x7b\x7b steps." ++ step.id ++ ".error \x7d\x7d").data = _
      rw [String.data_append, String.data_append]
      rfl
    have hmk : String.mk (['s', 't', 'e', 'p', 's', '.'] ++ step.id.toList ++
        ['.', 'e', 'r', 'r', 'o', 'r']) = "steps." ++ step.id ++ ".error" := by
      have h := congrArg String.mk hpath
      rw [strMk_toList] at h
      exact h.symm
    have hres' : resolveVariable
        (String.mk (['s', 't', 'e', 'p', 's', '.'] ++ step.id.toList ++
          ['.', 'e', 'r', 'r', 'o', 'r']))
        (storeStepResult
          (execSteps dispatch pre [("inputs", Value.vmap inputs)]).context
          step.id
          (dispatch step.action
            (interpolateParams
              (execSteps dispatch pre [("inputs", Value.vmap inputs)]).context
              step.parameters)).1
          (some e)) = Value.verr e := by
      rw [hmk]
      exact hresolve
    have hplain' : idxOf openDelim (goFormat (Value.verr e)).toList = none := hplain
    unfold interpolateString
    rw [htpl]
    rw [interpolateLoop_span _ step.id.toList (Value.verr e) _ hcb hres' hplain']
    exact strMk_toList e

/-- Dispatch used by the C7 witness: one action name fails, the rest
succeed. -/
def contDispatch : String → List (String × Value) → Option Value × Option String :=
  fun action _ =>
    if action == "fail_act" then (none, some "boom")
    else (some (Value.vstr "ok"), none)

/-- First step of the C7 witness playbook. -/
def contStepOne : PlaybookStep := ⟨"step-1", "first", "act_ok", [], "", ""⟩

/-- Failing middle step of the C7 witness playbook. -/
def contStepTwo : PlaybookStep := ⟨"step-2", "second", "fail_act", [], "continue", ""⟩

/-- Last step of the C7 witness playbook. -/
def contStepThree : PlaybookStep := ⟨"step-3", "third", "act_ok", [], "", ""⟩

/-- Three-step playbook of the C7 witness. -/
def contPlaybook : Playbook :=
  ⟨⟨"pb-cont", "demo", "", "1", [], [contStepOne, contStepTwo, contStepThree]⟩⟩

/-- Witness for C7: step two fails with continue, step three still runs and
the error is visible to its template. -/
theorem playbook_continue_records_error_witness :
    ExecutePlaybook contDispatch [("pb-cont", contPlaybook)] "pb-cont" [] =
      ((execSteps contDispatch [contStepOne] [("inputs", Value.vmap [])]).trace ++
        ⟨contStepTwo.id, contStepTwo.action,
          interpolateParams
            (execSteps contDispatch [contStepOne] [("inputs", Value.vmap [])]).context
            contStepTwo.parameters,
          (contDispatch contStepTwo.action
            (interpolateParams
              (execSteps contDispatch [contStepOne]
                [("inputs", Value.vmap [])]).context
              contStepTwo.parameters)).1,
          some "boom"⟩ ::
        (execSteps contDispatch [contStepThree]
          (storeStepResult
            (execSteps contDispatch [contStepOne] [("inputs", Value.vmap [])]).context
            contStepTwo.id
            (contDispatch contStepTwo.action
              (interpolateParams
                (execSteps contDispatch [contStepOne]
                  [("inputs", Value.vmap [])]).context
                contStepTwo.parameters)).1
            (some "boom"))).trace,
        (execSteps contDispatch [contStepThree]
          (storeStepResult
            (execSteps contDispatch [contStepOne] [("inputs", Value.vmap [])]).context
            contStepTwo.id
            (contDispatch contStepTwo.action
              (interpolateParams
                (execSteps contDispatch [contStepOne]
                  [("inputs", Value.vmap [])]).context
                contStepTwo.parameters)).1
            (some "boom"))).terminal) ∧
    resolveVariable ("steps." ++ contStepTwo.id ++ ".error")
        (storeStepResult
          (execSteps contDispatch [contStepOne] [("inputs", Value.vmap [])]).context
          contStepTwo.id
          (contDispatch contStepTwo.action
            (interpolateParams
              (execSteps contDispatch [contStepOne]
                [("inputs", Value.vmap [])]).context
              contStepTwo.parameters)).1
          (some "boom")) = Value.verr "boom" ∧
    interpolateString ("\x7b\x7b steps." ++ contStepTwo.id ++ ".error \x7d\x7d")
        (storeStepResult
          (execSteps contDispatch [contStepOne] [("inputs", Value.vmap [])]).context
          contStepTwo.id
          (contDispatch contStepTwo.action
            (interpolateParams
              (execSteps contDispatch [contStepOne]
                [("inputs", Value.vmap [])]).context
              contStepTwo.parameters)).1
          (some "boom")) = "boom" :=
  playbook_continue_records_error contDispatch [("pb-cont", contPlaybook)]
    "pb-cont" [] contPlaybook [contStepOne] contStepTwo [contStepThree] "boom"
    rfl rfl rfl rfl rfl rfl (by decide) (by decide) (by decide)
